import Mathlib

/-!
Verification of the column-transformation lineage engine of
verticapy/core/vdataframe/math.py against its natural-language
specification.  The Python source is shallowly embedded: string-level
helpers are re-implemented over lists of characters, the mutable
vDataFrame state is an explicit `Frame` record, and in-place mutation
is modelled as state passing.  Functions of the repository that are not
part of the source sample (quote_ident, add_copy, eval,
update_catalog, add_to_history, get_columns, to_category) are modelled
from the specification and carry a doc comment saying so.
-/

set_option maxRecDepth 4000

/-- Character-list test: does the second list start with the first one. -/
def startsWithChars : List Char → List Char → Bool
  | [], _ => true
  | _ :: _, [] => false
  | p :: ps, s :: ss => p == s && startsWithChars ps ss

/-- Character-list test: does the pattern occur somewhere in the list. -/
def occursChars (pat : List Char) : List Char → Bool
  | [] => startsWithChars pat []
  | c :: rest => startsWithChars pat (c :: rest) || occursChars pat rest

/-- Python substring containment, s.contains pat, as used by the keyword in. -/
def strContains (s pat : String) : Bool :=
  occursChars pat.data s.data

/-- Replaces every occurrence of the two-character placeholder marker by rep,
scanning left to right without overlap, exactly as the Python call
func.replace with the placeholder marker and the column name does. -/
def replB (rep : List Char) : List Char → List Char
  | [] => []
  | [a] => [a]
  | a :: b :: rest2 =>
    if a == '\x7b' && b == '\x7d' then rep ++ replB rep rest2
    else a :: replB rep (b :: rest2)

/-- String form of `replB`: substitute the placeholder marker by rep in s. -/
def replaceBraces (rep s : String) : String :=
  ⟨replB rep.data s.data⟩

/-- Number of non-overlapping occurrences of the placeholder marker. -/
def countPh : List Char → Nat
  | [] => 0
  | [_] => 0
  | a :: b :: rest2 =>
    if a == '\x7b' && b == '\x7d' then 1 + countPh rest2 else countPh (b :: rest2)

/-- Number of placeholder markers in a template string. -/
def placeholderCount (s : String) : Nat := countPh s.data

/-- Python replace of the double-quote character by the empty string. -/
def stripQuotes (s : String) : String :=
  ⟨s.data.filter (fun c => !(c == '"'))⟩

/-- Lower-cases every character of a string. -/
def lowerStr (s : String) : String := ⟨s.data.map Char.toLower⟩

/-- Upper-cases every character of a string, as Python str.upper. -/
def upperStr (s : String) : String := ⟨s.data.map Char.toUpper⟩

/-- Doubles every embedded double-quote character. -/
def doubleQ : List Char → List Char
  | [] => []
  | c :: rest => if c == '"' then '"' :: '"' :: doubleQ rest else c :: doubleQ rest

/-- Modelled from the spec: quote_ident of section 4.1 (the utility lives in
verticapy/sql/_utils/_format.py, outside the source sample).  Wraps a name in
double quotes, doubling any embedded quote character; idempotent on an already
quoted identifier. -/
def quote_ident (name : String) : String :=
  match name.data with
  | [] => "\"\""
  | c :: rest =>
    if c == '"' && rest.getLast? == some '"' then name
    else ⟨'"' :: (doubleQ name.data ++ ['"'])⟩

/-- Word character in the sense of the regex word-boundary marker. -/
def isWordChar (c : Char) : Bool := c.isAlphanum || c == '_'

/-- Does ident match at the head of s with a word boundary at its right end. -/
def wbMatchAt (ident s : List Char) : Bool :=
  startsWithChars ident s &&
    (match s.drop ident.length with
     | [] => true
     | c :: _ => !(isWordChar c))

/-- Scans s for a free-standing word-boundary occurrence of ident; prev is the
character just before the current position, none at the start of the string. -/
def wbScan (ident : List Char) (prev : Option Char) : List Char → Bool
  | [] => false
  | c :: rest =>
    (wbMatchAt ident (c :: rest) &&
      (match prev with | none => true | some p => !(isWordChar p)))
    || wbScan ident (some c) rest

/-- Modelled from the spec: referencesIdentifier of section 4.1 — true if the
expression contains the identifier either as its quoted form or as a
free-standing word-boundary match of its unquoted form. -/
def referencesIdentifierSpec (expr ident : String) : Bool :=
  strContains expr (quote_ident ident)
    || wbScan (stripQuotes ident).data none expr.data

/-- Embeds the dependency test of vDCMATH.apply, math.py lines 641 to 651.
The source also builds a word-boundary regular-expression test on the unquoted
column name, but the re module is never imported in math.py (lines 17 to 27),
so evaluating that branch raises NameError, which the surrounding bare except
swallows; hence only the quoted-containment test is ever effective. -/
def dependsOnCode (func column : String) : Bool :=
  strContains func (quote_ident column)

/-- Modelled from the spec: categoryOf of section 4.1 (to_category lives in
verticapy/_utils/_cast.py, outside the source sample).  Total classification
of an engine type string into a semantic category; unknown types map to the
category unknown and never fail. -/
def to_category (ctype : String) : String :=
  let t := lowerStr ctype
  if strContains t "int" then "int"
  else if strContains t "float" || strContains t "numeric" ||
          strContains t "double" || strContains t "real" then "float"
  else if strContains t "date" || strContains t "time" then "date"
  else if strContains t "bool" then "bool"
  else if strContains t "char" || strContains t "text" then "text"
  else if strContains t "binary" then "binary"
  else if strContains t "uuid" then "uuid"
  else if strContains t "vmap" then "vmap"
  else if strContains t "array" || strContains t "row" ||
          strContains t "set" then "complex"
  else "unknown"

/-- One transformation step: expression template, result type, result category,
mirroring the Python tuples stored in vColumn.transformations. -/
structure TransStep where
  template : String
  ctype : String
  category : String
deriving DecidableEq, Repr

/-- One column entry: its chain of transformation steps and the identity of its
statistics catalog.  The catalog identity models Python object identity of the
mutable catalog dictionary, so that the aliasing assignment on math.py line 661
is representable. -/
structure VColumn where
  transformations : List TransStep
  catalogId : Nat
deriving DecidableEq, Repr

/-- The vDataFrame state relevant to the claims: the insertion-ordered mapping
from quoted column name to column entry, the store of statistics catalogs indexed by
identity, a counter for fresh catalog identities, the exclude list and the
history log. -/
structure Frame where
  columns : List (String × VColumn)
  catalogs : List (Nat × List (String × String))
  nextCatalog : Nat
  excludeColumns : List String
  history : List String
deriving DecidableEq, Repr

/-- First-match association lookup over the column mapping. -/
def lookupPairs : List (String × VColumn) → String → Option VColumn
  | [], _ => none
  | (a, c) :: rest, x => if a == x then some c else lookupPairs rest x

/-- Replaces the value stored under a key, in place, keeping order. -/
def setPairs : List (String × VColumn) → String → VColumn → List (String × VColumn)
  | [], _, _ => []
  | (a, c) :: rest, x, c2 =>
    if a == x then (a, c2) :: setPairs rest x c2 else (a, c) :: setPairs rest x c2

/-- First-match lookup in the catalog store; an absent identity reads as the
empty catalog. -/
def lookupCat : List (Nat × List (String × String)) → Nat → List (String × String)
  | [], _ => []
  | (i, cat) :: rest, x => if i == x then cat else lookupCat rest x

/-- First-match lookup of a statistic by name in one catalog. -/
def statLookup : List (String × String) → String → Option String
  | [], _ => none
  | (n, v) :: rest, x => if n == x then some v else statLookup rest x

/-- Stores a statistic, overwriting silently on an existing name. -/
def statUpsert (name val : String) : List (String × String) → List (String × String)
  | [] => [(name, val)]
  | (n, v) :: rest =>
    if n == name then (n, val) :: rest else (n, v) :: statUpsert name val rest

/-- Looks a column up by its quoted al. -/
def Frame.lookupCol (fr : Frame) (al : String) : Option VColumn :=
  lookupPairs fr.columns al

/-- Overwrites the entry stored under an al. -/
def Frame.setCol (fr : Frame) (al : String) (c : VColumn) : Frame :=
  { fr with columns := setPairs fr.columns al c }

/-- Applies a function to the entry stored under an al, if present. -/
def Frame.modifyCol (fr : Frame) (al : String) (f : VColumn → VColumn) : Frame :=
  match fr.lookupCol al with
  | some c => fr.setCol al (f c)
  | none => fr

/-- The insertion-ordered list of all aliases of the mapping. -/
def Frame.colAliases (fr : Frame) : List String := fr.columns.map Prod.fst

/-- Modelled from the spec: get_columns, the default all-columns view of
section 4.4 activeColumns (the method lives in another module of the
repository).  Insertion-ordered aliases with the exclude list filtered out. -/
def Frame.get_columns (fr : Frame) : List String :=
  fr.colAliases.filter (fun a => decide (¬ a ∈ fr.excludeColumns))

/-- Transformation-chain depth of a column, 0 when the al is absent. -/
def Frame.depthOf (fr : Frame) (al : String) : Nat :=
  match fr.lookupCol al with
  | some c => c.transformations.length
  | none => 0

/-- Reads the catalog stored under a catalog identity. -/
def Frame.catalogOf (fr : Frame) (id : Nat) : List (String × String) :=
  lookupCat fr.catalogs id

/-- Cached statistic of a column, absent when not cached. -/
def Frame.cachedStat (fr : Frame) (al name : String) : Option String :=
  match fr.lookupCol al with
  | some c => statLookup (fr.catalogOf c.catalogId) name
  | none => none

/-- Stores a cached statistic on a column; the updated catalog shadows the old
one in the store, modelling in-place mutation of the shared dictionary. -/
def Frame.setCachedStat (fr : Frame) (al name val : String) : Frame :=
  match fr.lookupCol al with
  | some c =>
    { fr with catalogs :=
        (c.catalogId, statUpsert name val (fr.catalogOf c.catalogId)) :: fr.catalogs }
  | none => fr

/-- Modelled from the spec: the erase branch of vDataFrame.__update_catalog__
(not in the source sample), called on math.py line 666 — clears all cached
statistics for the given column.  The column is given a fresh empty catalog,
matching reassignment of the catalog dictionary. -/
def Frame.eraseCatalog (fr : Frame) (al : String) : Frame :=
  match fr.lookupCol al with
  | some c =>
    { fr with
      columns := setPairs fr.columns al { c with catalogId := fr.nextCatalog },
      catalogs := (fr.nextCatalog, []) :: fr.catalogs,
      nextCatalog := fr.nextCatalog + 1 }
  | none => fr

/-- Modelled from the spec: vDataFrame.__add_to_history__ (not in the source
sample), called on math.py line 667 — appends one entry to the history log. -/
def Frame.addHistory (fr : Frame) (m : String) : Frame :=
  { fr with history := fr.history ++ [m] }

/-- Current type of a column, the type of the last step of its chain. -/
def VColumn.ctype (c : VColumn) : String :=
  match c.transformations.getLast? with
  | some s => s.ctype
  | none => "undefined"

/-- Current category of a column, the category of the last step of its chain. -/
def VColumn.category (c : VColumn) : String :=
  match c.transformations.getLast? with
  | some s => s.category
  | none => "undefined"

/-- Modelled from the spec: vColumn.add_copy (not in the source sample), called
on math.py line 655 — creates an entry under the canonical quoted al whose
chain is a value copy of the source chain and whose cache is a deep copy of the
source cache, per the copy operation of section 4.3.  An existing al is
overwritten in place, keeping the mapping free of duplicate keys. -/
def Frame.add_copy (fr : Frame) (srcAlias name : String) : Frame :=
  match fr.lookupCol srcAlias with
  | none => fr
  | some c =>
    let cn := quote_ident name
    let newCol : VColumn := ⟨c.transformations, fr.nextCatalog⟩
    { fr with
      columns :=
        match fr.lookupCol cn with
        | some _ => setPairs fr.columns cn newCol
        | none => fr.columns ++ [(cn, newCol)],
      catalogs := (fr.nextCatalog, fr.catalogOf c.catalogId) :: fr.catalogs,
      nextCatalog := fr.nextCatalog + 1 }

/-- The maximum chain depth among the columns the template depends on, per the
loop of math.py lines 640 to 651 (using the effective dependency test
`dependsOnCode`). -/
def Frame.maxRefDepth (fr : Frame) (func : String) : Nat :=
  fr.get_columns.foldl
    (fun m column => if dependsOnCode func column then max (fr.depthOf column) m else m) 0

/-- The identity padding step of math.py lines 657 to 659 and 663 to 664: the
bare placeholder with the current type and category of the source column. -/
def identStep (col : VColumn) : TransStep :=
  ⟨"\x7b\x7d", col.ctype, col.category⟩

/-- The history entry of math.py lines 667 to 670; quote characters of the
al stripped as in the source, punctuation normalized. -/
def applyHistMsg (al func : String) : String :=
  "[Apply]: The vColumn " ++ stripQuotes al ++
    " was transformed with the func x -> " ++ replaceBraces al func ++ "."

/-- The error message of math.py lines 672 to 676, punctuation normalized; the
wrapped engine error text is outside the model. -/
def applyErrMsg (al func : String) : String :=
  "Error when applying the func x -> " ++ replaceBraces al func ++
    " to " ++ stripQuotes al

/-- Success path of vDCMATH.apply without copy_name, math.py lines 662 to 670:
pad the chain with identity steps up to the maximum referenced depth, append
the real step, erase the cached statistics, append the history entry.  The
padding loop reads self.ctype() while it appends bare-placeholder steps, which
keeps returning the type of the original last step, so the padding is a
replication of `identStep col`. -/
def applyCommitSelf (fr : Frame) (al : String) (col : VColumn)
    (func ctype : String) : Frame :=
  let category := to_category ctype
  let max_floor := fr.maxRefDepth func - col.transformations.length
  let fr1 := fr.setCol al
    { col with transformations :=
        col.transformations ++ List.replicate max_floor (identStep col) ++
          [⟨func, ctype, category⟩] }
  let fr2 := fr1.eraseCatalog al
  fr2.addHistory (applyHistMsg al func)

/-- Success path of vDCMATH.apply with a copy name, math.py lines 653 to 670:
create the copy, pad its chain, append the real step, then make its catalog the
very catalog object of the source column (line 661), and append the history
entry. -/
def applyCommitCopy (fr : Frame) (al : String) (col : VColumn)
    (func copy_name ctype : String) : Frame :=
  let category := to_category ctype
  let max_floor := fr.maxRefDepth func - col.transformations.length
  let cn := quote_ident copy_name
  let fr1 := fr.add_copy al copy_name
  let fr2 := fr1.modifyCol cn (fun cc =>
    { cc with transformations :=
        cc.transformations ++ List.replicate max_floor (identStep col) ++
          [⟨func, ctype, category⟩] })
  let fr3 := fr2.modifyCol cn (fun cc => { cc with catalogId := col.catalogId })
  fr3.addHistory (applyHistMsg al func)

/-- Embeds vDCMATH.apply, math.py lines 600 to 676.  The zero-row probe query
of get_data_types (lines 630 to 638, the function itself is outside the source
sample) is the external type-inference interface of spec section 6 and is
modelled by the oracle `probe`, applied to the template with the placeholder
substituted by the al; a none answer is the query failure that the source
turns into a QueryError.  All failure points of the source precede the first
mutation. -/
def applyFunc (fr : Frame) (al func copy_name : String)
    (probe : String → Option String) : Frame × Except String Unit :=
  match fr.lookupCol al with
  | none => (fr, Except.error "MissingColumn")
  | some col =>
    let func_apply := replaceBraces al func
    match probe func_apply with
    | none => (fr, Except.error (applyErrMsg al func))
    | some ctype =>
      if copy_name == "" then
        (applyCommitSelf fr al col func ctype, Except.ok ())
      else
        (applyCommitCopy fr al col func copy_name ctype, Except.ok ())

/-- A sequence of apply calls targeting one column, used to state chain
monotonicity over sequences. -/
def applySeq (al : String) (fr : Frame) :
    List (String × (String → Option String)) → Frame
  | [] => fr
  | (f, p) :: rest => applySeq al ((applyFunc fr al f "" p).1) rest

/-- The maximum chain depth among the columns the specified referencesIdentifier
test finds in the expression — the alignment quantity of spec section 4.4. -/
def Frame.maxRefDepthSpec (fr : Frame) (expr : String) : Nat :=
  fr.colAliases.foldl
    (fun m a => if referencesIdentifierSpec expr a then max (fr.depthOf a) m else m) 0

/-- Modelled from the spec: Frame.evalColumn of section 4.4 — vDataFrame.eval is
not in the source sample.  If the canonical quoted name exists, delegates to
apply on its entry; else creates a new entry pre-padded with identity steps up
to the maximum current depth among the columns the template references, then
appends the real step, and appends a history entry.  The caller supplies the
inferred result type, so the probe of the delegated apply always succeeds; the
UnknownColumn check of the spec needs identifier parsing of the expression and
is not exercised by any claim. -/
def Frame.evalColumn (fr : Frame) (name expr ctype : String) : Frame :=
  let cn := quote_ident name
  match fr.lookupCol cn with
  | some _ => (applyFunc fr cn expr "" (fun _ => some ctype)).1
  | none =>
    let maxd := fr.maxRefDepthSpec expr
    let newCol : VColumn :=
      ⟨List.replicate maxd ⟨"\x7b\x7d", ctype, to_category ctype⟩ ++
        [⟨expr, ctype, to_category ctype⟩], fr.nextCatalog⟩
    { fr with
      columns := fr.columns ++ [(cn, newCol)],
      catalogs := (fr.nextCatalog, []) :: fr.catalogs,
      nextCatalog := fr.nextCatalog + 1,
      history := fr.history ++ ["[Eval]: A new vColumn " ++ name ++ " was added."] }

/-- Helper-column name built on math.py line 237. -/
def meanNameOf (column : String) (rnb : Nat) : String :=
  stripQuotes column ++ "_mean_" ++ Nat.repr rnb

/-- Helper-column name built on math.py line 238. -/
def medianNameOf (column : String) (rnb : Nat) : String :=
  stripQuotes column ++ "_median_" ++ Nat.repr rnb

/-- Helper-column name built on math.py line 239. -/
def stdNameOf (column : String) (rnb : Nat) : String :=
  stripQuotes column ++ "_std_" ++ Nat.repr rnb

/-- Helper-column name built on math.py line 240. -/
def countNameOf (column : String) (rnb : Nat) : String :=
  stripQuotes column ++ "_count_" ++ Nat.repr rnb

/-- Expression of math.py line 245. -/
def meanExpr (column by_ : String) : String :=
  "AVG(" ++ column ++ ") OVER (" ++ by_ ++ ")"

/-- Expression of math.py line 243. -/
def medianExpr (column by_ : String) : String :=
  "MEDIAN(" ++ column ++ ") OVER (" ++ by_ ++ ")"

/-- Expression of math.py line 247. -/
def stdExpr (column by_ : String) : String :=
  "STDDEV(" ++ column ++ ") OVER (" ++ by_ ++ ")"

/-- Expression of math.py line 248. -/
def countExpr (column by_ : String) : String :=
  "COUNT(" ++ column ++ ") OVER (" ++ by_ ++ ")"

/-- Expression of math.py lines 249 to 262, whitespace normalized. -/
def kurtosisExpr (column mean std count by_ : String) : String :=
  "AVG(POWER((" ++ column ++ " - " ++ mean ++ ") / NULLIFZERO(" ++ std ++
    "), 4)) OVER (" ++ by_ ++ ") * POWER(" ++ count ++ ", 2) * (" ++ count ++
    " + 1) / NULLIFZERO((" ++ count ++ " - 1) * (" ++ count ++ " - 2) * (" ++
    count ++ " - 3)) - 3 * POWER(" ++ count ++ " - 1, 2) / NULLIFZERO((" ++
    count ++ " - 2) * (" ++ count ++ " - 3))"

/-- Expression of math.py lines 263 to 271, whitespace normalized. -/
def skewnessExpr (column mean std count by_ : String) : String :=
  "AVG(POWER((" ++ column ++ " - " ++ mean ++ ") / NULLIFZERO(" ++ std ++
    "), 3)) OVER (" ++ by_ ++ ") * POWER(" ++ count ++
    ", 2) / NULLIFZERO((" ++ count ++ " - 1) * (" ++ count ++ " - 2))"

/-- Expression of math.py lines 272 to 284, whitespace normalized. -/
def jbExpr (column mean std count by_ : String) : String :=
  count ++ " / 6 * (POWER(AVG(POWER((" ++ column ++ " - " ++ mean ++
    ") / NULLIFZERO(" ++ std ++ "), 3)) OVER (" ++ by_ ++ ") * POWER(" ++
    count ++ ", 2) / NULLIFZERO((" ++ count ++ " - 1) * (" ++ count ++
    " - 2)), 2) + POWER(AVG(POWER((" ++ column ++ " - " ++ mean ++
    ") / NULLIFZERO(" ++ std ++ "), 4)) OVER (" ++ by_ ++ ") * POWER(" ++
    count ++ ", 2) * (" ++ count ++ " + 1) / NULLIFZERO((" ++ count ++
    " - 1) * (" ++ count ++ " - 2) * (" ++ count ++ " - 3)) - 3 * POWER(" ++
    count ++ " - 1, 2) / NULLIFZERO((" ++ count ++ " - 2) * (" ++ count ++
    " - 3)), 2) / 4)"

/-- Expression of math.py lines 285 to 288. -/
def aadExpr (column mean by_ : String) : String :=
  "AVG(ABS(" ++ column ++ " - " ++ mean ++ ")) OVER (" ++ by_ ++ ")"

/-- Expression of math.py lines 289 to 292. -/
def madExpr (column median by_ : String) : String :=
  "AVG(ABS(" ++ column ++ " - " ++ median ++ ")) OVER (" ++ by_ ++ ")"

/-- Embeds vDFMATH.analytic, math.py lines 196 to 292 together with 450 to 459,
restricted to the higher-moment branch func in skewness, kurtosis, aad, mad,
jb.  random.randint of line 235 is modelled as the parameter rnb; the result
type every delegated eval infers through the external probe is the parameter
t; the partition columns are already formatted; name is supplied nonempty and
order_by is empty, so the branches reading the absent OPTIONS global and
gen_name are not entered.  vDataFrame.eval is not in the source sample and is
modelled from the spec as Frame.evalColumn. -/
def Frame.analyticMoment (fr : Frame) (func column : String)
    (byCols : List String) (name : String) (rnb : Nat) (t : String) : Frame :=
  if func ∈ ["skewness", "kurtosis", "aad", "mad", "jb"] then
    let byJ := String.intercalate ", " byCols
    let by_ := if byJ == "" then "" else "PARTITION BY " ++ byJ
    let mean_name := meanNameOf column rnb
    let median_name := medianNameOf column rnb
    let std_name := stdNameOf column rnb
    let count_name := countNameOf column rnb
    let fr1 :=
      if func == "mad" then fr.evalColumn median_name (medianExpr column by_) t
      else fr.evalColumn mean_name (meanExpr column by_) t
    let fr2 :=
      if func ∈ ["aad", "mad"] then fr1
      else (fr1.evalColumn std_name (stdExpr column by_) t).evalColumn
        count_name (countExpr column by_) t
    let fr3 :=
      if func == "kurtosis" then
        fr2.evalColumn name (kurtosisExpr column mean_name std_name count_name by_) t
      else if func == "skewness" then
        fr2.evalColumn name (skewnessExpr column mean_name std_name count_name by_) t
      else if func == "jb" then
        fr2.evalColumn name (jbExpr column mean_name std_name count_name by_) t
      else if func == "aad" then
        fr2.evalColumn name (aadExpr column mean_name by_) t
      else
        fr2.evalColumn name (madExpr column median_name by_) t
    if func ∈ ["kurtosis", "skewness", "jb"] then
      { fr3 with excludeColumns := fr3.excludeColumns ++
          [quote_ident mean_name, quote_ident std_name, quote_ident count_name] }
    else if func == "aad" then
      { fr3 with excludeColumns := fr3.excludeColumns ++ [quote_ident mean_name] }
    else
      { fr3 with excludeColumns := fr3.excludeColumns ++ [quote_ident median_name] }
  else fr

/-- A Python argument of apply_fun: either a string or a numeric literal
carried as its printed text. -/
inductive PyArg where
  | str : String → PyArg
  | num : String → PyArg
deriving DecidableEq, Repr

/-- Verbatim interpolation of a Python argument into an f-string. -/
def PyArg.render : PyArg → String
  | .str s => s
  | .num s => s

/-- The apostrophe character, kept out of literals. -/
def aposC : Char := Char.ofNat 39

/-- SQL string literal quoting of math.py line 801: wrap in apostrophes and
double every embedded apostrophe. -/
def sqlStrLit (s : String) : String :=
  ⟨aposC :: (s.data.foldr
      (fun c acc => if c == aposC then aposC :: aposC :: acc else c :: acc)
      [aposC])⟩

/-- Embeds the expression-building part of vDCMATH.apply_fun, math.py lines
772 to 803: the renamings of func, the category dispatch for len, the
APPLY-prefixed aggregates, the dimension function, and the one- or
two-argument template shapes. -/
def apply_fun_expr (func0 cat : String) (x : PyArg) : String :=
  let f1 := if func0 == "mean" then "avg"
            else if func0 == "length" then "len" else func0
  let f2 :=
    if f1 == "len" then
      if cat == "vmap" then "MAPSIZE"
      else if cat == "complex" then "APPLY_COUNT_ELEMENTS"
      else "LENTGH"
    else if f1 ∈ ["max", "min", "sum", "avg", "count"] then "APPLY_" ++ f1
    else if f1 == "dim" then "ARRAY_DIMS"
    else f1
  if ¬ (f2 ∈ ["log", "mod", "pow", "round", "contain", "find"]) then
    upperStr f2 ++ "(\x7b\x7d)"
  else if f2 ∈ ["log", "mod", "pow", "round"] then
    upperStr f2 ++ "(\x7b\x7d, " ++ x.render ++ ")"
  else
    let f := if f2 == "contain" then
               (if cat == "vmap" then "MAPCONTAINSVALUE" else "CONTAINS")
             else "ARRAY_FIND"
    let xs := match x with
              | .str s => sqlStrLit s
              | .num s => s
    f ++ "(\x7b\x7d, " ++ xs ++ ")"

/-- Embeds vDCMATH.apply_fun as a frame operation: build the template from the
current category of the column and delegate to apply. -/
def Frame.apply_fun (fr : Frame) (al func : String) (x : PyArg)
    (probe : String → Option String) : Frame × Except String Unit :=
  match fr.lookupCol al with
  | none => (fr, Except.error "MissingColumn")
  | some c => applyFunc fr al (apply_fun_expr func c.category x) "" probe

/-- Embeds the function-name dispatch of vDCMATH.get_len, math.py lines
866 to 872. -/
def get_len_fun (cat : String) : String :=
  if cat == "vmap" then "MAPSIZE"
  else if cat == "complex" then "APPLY_COUNT_ELEMENTS"
  else "LENGTH"

/-- The selected element of vDCMATH.get_len, math.py line 873. -/
def get_len_select (al cat : String) : String :=
  get_len_fun cat ++ "(" ++ al ++ ")"

/-- The SQL function name a template starts with: the characters before the
first opening parenthesis. -/
def funcNameOf (s : String) : String :=
  ⟨s.data.takeWhile (fun c => !(c == '('))⟩

theorem lookupPairs_set_self (l : List (String × VColumn)) (x : String) (c : VColumn) :
    lookupPairs (setPairs l x c) x = (lookupPairs l x).map (fun _ => c) := by
  induction l with
  | nil => simp [lookupPairs, setPairs]
  | cons p rest ih =>
    obtain ⟨a, c0⟩ := p
    by_cases h : a == x
    · simp [lookupPairs, setPairs, h]
    · simp [lookupPairs, setPairs, h, ih]

theorem lookupPairs_set_ne (l : List (String × VColumn)) (x y : String) (c : VColumn)
    (h : y ≠ x) : lookupPairs (setPairs l x c) y = lookupPairs l y := by
  induction l with
  | nil => simp [setPairs]
  | cons p rest ih =>
    obtain ⟨a, c0⟩ := p
    by_cases hax : a == x
    · have hx : a = x := by simpa using hax
      have hay : ¬ (a == y) := by
        simp only [beq_iff_eq]
        intro hh
        exact h (hh ▸ hx ▸ rfl)
      simp [lookupPairs, setPairs, hax, hay, ih]
    · by_cases hay : a == y
      · simp [lookupPairs, setPairs, hax, hay]
      · simp [lookupPairs, setPairs, hax, hay, ih]

theorem mapFst_setPairs (l : List (String × VColumn)) (x : String) (c : VColumn) :
    (setPairs l x c).map Prod.fst = l.map Prod.fst := by
  induction l with
  | nil => simp [setPairs]
  | cons p rest ih =>
    obtain ⟨a, c0⟩ := p
    by_cases h : a == x
    · simp [setPairs, h, ih]
    · simp [setPairs, h, ih]

theorem lookupPairs_mem {l : List (String × VColumn)} {x : String} {c : VColumn}
    (h : lookupPairs l x = some c) : x ∈ l.map Prod.fst := by
  induction l with
  | nil => simp [lookupPairs] at h
  | cons p rest ih =>
    obtain ⟨a, c0⟩ := p
    by_cases hax : a == x
    · have : a = x := by simpa using hax
      simp [this]
    · simp only [lookupPairs, hax] at h
      simp [ih h]

theorem lookupPairs_append_some {l : List (String × VColumn)} {x : String} {c : VColumn}
    (m : List (String × VColumn)) (h : lookupPairs l x = some c) :
    lookupPairs (l ++ m) x = some c := by
  induction l with
  | nil => simp [lookupPairs] at h
  | cons p rest ih =>
    obtain ⟨a, c0⟩ := p
    by_cases hax : a == x
    · simp only [lookupPairs, hax] at h ⊢
      simpa using h
    · simp only [lookupPairs, hax] at h ⊢
      simp at hax
      simp [lookupPairs, hax, ih h]

theorem lookupPairs_append_none {l : List (String × VColumn)} {x : String}
    (m : List (String × VColumn)) (h : lookupPairs l x = none) :
    lookupPairs (l ++ m) x = lookupPairs m x := by
  induction l with
  | nil => simp
  | cons p rest ih =>
    obtain ⟨a, c0⟩ := p
    by_cases hax : a == x
    · simp only [lookupPairs, hax] at h
      simp at h
    · simp only [lookupPairs, hax] at h
      simp [lookupPairs, hax, ih h]

theorem statLookup_upsert_self (cat : List (String × String)) (n v : String) :
    statLookup (statUpsert n v cat) n = some v := by
  induction cat with
  | nil => simp [statLookup, statUpsert]
  | cons p rest ih =>
    obtain ⟨a, w⟩ := p
    by_cases h : a == n
    · simp [statLookup, statUpsert, h]
    · simp [statLookup, statUpsert, h, ih]

theorem lookupCat_shadow (l : List (Nat × List (String × String))) (nid cid : Nat) :
    lookupCat ((nid, lookupCat l cid) :: l) cid = lookupCat l cid := by
  by_cases h : nid == cid
  · simp [lookupCat, h]
  · simp [lookupCat, h]

theorem lookupCat_head (l : List (Nat × List (String × String))) (n : Nat)
    (cat : List (String × String)) : lookupCat ((n, cat) :: l) n = cat := by
  simp [lookupCat]

theorem setCol_catalogs (fr : Frame) (x : String) (c : VColumn) :
    (fr.setCol x c).catalogs = fr.catalogs := rfl

theorem setCol_nextCatalog (fr : Frame) (x : String) (c : VColumn) :
    (fr.setCol x c).nextCatalog = fr.nextCatalog := rfl

theorem setCol_exclude (fr : Frame) (x : String) (c : VColumn) :
    (fr.setCol x c).excludeColumns = fr.excludeColumns := rfl

theorem setCol_history (fr : Frame) (x : String) (c : VColumn) :
    (fr.setCol x c).history = fr.history := rfl

theorem setCol_colAliases (fr : Frame) (x : String) (c : VColumn) :
    (fr.setCol x c).colAliases = fr.colAliases := by
  simp [Frame.setCol, Frame.colAliases, mapFst_setPairs]

theorem lookupCol_setCol_self {fr : Frame} {x : String} {c0 : VColumn} (c : VColumn)
    (h : fr.lookupCol x = some c0) : (fr.setCol x c).lookupCol x = some c := by
  simp only [Frame.lookupCol, Frame.setCol, lookupPairs_set_self]
  rw [show lookupPairs fr.columns x = some c0 from h]
  rfl

theorem lookupCol_setCol_ne (fr : Frame) (x y : String) (c : VColumn) (h : y ≠ x) :
    (fr.setCol x c).lookupCol y = fr.lookupCol y := by
  simp [Frame.lookupCol, Frame.setCol, lookupPairs_set_ne _ _ _ _ h]

theorem addHistory_columns (fr : Frame) (m : String) :
    (fr.addHistory m).columns = fr.columns := rfl

theorem addHistory_catalogs (fr : Frame) (m : String) :
    (fr.addHistory m).catalogs = fr.catalogs := rfl

theorem addHistory_nextCatalog (fr : Frame) (m : String) :
    (fr.addHistory m).nextCatalog = fr.nextCatalog := rfl

theorem addHistory_exclude (fr : Frame) (m : String) :
    (fr.addHistory m).excludeColumns = fr.excludeColumns := rfl

theorem addHistory_history (fr : Frame) (m : String) :
    (fr.addHistory m).history = fr.history ++ [m] := rfl

theorem addHistory_lookupCol (fr : Frame) (m : String) (x : String) :
    (fr.addHistory m).lookupCol x = fr.lookupCol x := rfl

theorem eraseCatalog_history (fr : Frame) (x : String) :
    (fr.eraseCatalog x).history = fr.history := by
  unfold Frame.eraseCatalog
  split <;> rfl

theorem eraseCatalog_exclude (fr : Frame) (x : String) :
    (fr.eraseCatalog x).excludeColumns = fr.excludeColumns := by
  unfold Frame.eraseCatalog
  split <;> rfl

theorem eraseCatalog_colAliases (fr : Frame) (x : String) :
    (fr.eraseCatalog x).colAliases = fr.colAliases := by
  unfold Frame.eraseCatalog
  split
  · simp [Frame.colAliases, mapFst_setPairs]
  · rfl

theorem modifyCol_history (fr : Frame) (x : String) (f : VColumn → VColumn) :
    (fr.modifyCol x f).history = fr.history := by
  unfold Frame.modifyCol
  split <;> rfl

theorem modifyCol_exclude (fr : Frame) (x : String) (f : VColumn → VColumn) :
    (fr.modifyCol x f).excludeColumns = fr.excludeColumns := by
  unfold Frame.modifyCol
  split <;> rfl

theorem modifyCol_catalogs (fr : Frame) (x : String) (f : VColumn → VColumn) :
    (fr.modifyCol x f).catalogs = fr.catalogs := by
  unfold Frame.modifyCol
  split <;> rfl

theorem modifyCol_nextCatalog (fr : Frame) (x : String) (f : VColumn → VColumn) :
    (fr.modifyCol x f).nextCatalog = fr.nextCatalog := by
  unfold Frame.modifyCol
  split <;> rfl

theorem modifyCol_colAliases (fr : Frame) (x : String) (f : VColumn → VColumn) :
    (fr.modifyCol x f).colAliases = fr.colAliases := by
  unfold Frame.modifyCol
  split
  · simp [setCol_colAliases]
  · rfl

theorem modifyCol_lookup_self {fr : Frame} {x : String} {c : VColumn}
    (f : VColumn → VColumn) (h : fr.lookupCol x = some c) :
    (fr.modifyCol x f).lookupCol x = some (f c) := by
  unfold Frame.modifyCol
  rw [h]
  exact lookupCol_setCol_self (f c) h

theorem modifyCol_lookup_ne (fr : Frame) (x y : String) (f : VColumn → VColumn)
    (h : y ≠ x) : (fr.modifyCol x f).lookupCol y = fr.lookupCol y := by
  unfold Frame.modifyCol
  split
  · exact lookupCol_setCol_ne _ _ _ _ h
  · rfl

theorem add_copy_history (fr : Frame) (src name : String) :
    (fr.add_copy src name).history = fr.history := by
  unfold Frame.add_copy
  split <;> rfl

theorem add_copy_exclude (fr : Frame) (src name : String) :
    (fr.add_copy src name).excludeColumns = fr.excludeColumns := by
  unfold Frame.add_copy
  split <;> rfl

theorem apply_error_unchanged (fr fr' : Frame) (al func copy_name : String)
    (probe : String → Option String) (e : String)
    (h : applyFunc fr al func copy_name probe = (fr', Except.error e)) : fr' = fr := by
  unfold applyFunc at h
  cases hc : fr.lookupCol al with
  | none =>
    rw [hc] at h
    simp only [Prod.mk.injEq] at h
    exact h.1.symm
  | some col =>
    rw [hc] at h
    simp only [] at h
    cases hp : probe (replaceBraces al func) with
    | none =>
      rw [hp] at h
      simp only [Prod.mk.injEq] at h
      exact h.1.symm
    | some ctype =>
      rw [hp] at h
      simp only [] at h
      split at h <;> simp at h

theorem apply_ok_self_elim {fr fr' : Frame} {al func : String}
    {probe : String → Option String}
    (h : applyFunc fr al func "" probe = (fr', Except.ok ())) :
    ∃ col ctype, fr.lookupCol al = some col ∧
      probe (replaceBraces al func) = some ctype ∧
      fr' = applyCommitSelf fr al col func ctype := by
  unfold applyFunc at h
  cases hc : fr.lookupCol al with
  | none =>
    rw [hc] at h
    simp at h
  | some col =>
    rw [hc] at h
    simp only [] at h
    cases hp : probe (replaceBraces al func) with
    | none =>
      rw [hp] at h
      simp at h
    | some ctype =>
      rw [hp] at h
      simp only [] at h
      rw [if_pos (show ("" == "") = true from rfl)] at h
      simp only [Prod.mk.injEq] at h
      exact ⟨col, ctype, rfl, rfl, h.1.symm⟩

theorem apply_ok_copy_elim {fr fr' : Frame} {al func copy_name : String}
    {probe : String → Option String} (hcp : copy_name ≠ "")
    (h : applyFunc fr al func copy_name probe = (fr', Except.ok ())) :
    ∃ col ctype, fr.lookupCol al = some col ∧
      probe (replaceBraces al func) = some ctype ∧
      fr' = applyCommitCopy fr al col func copy_name ctype := by
  unfold applyFunc at h
  cases hc : fr.lookupCol al with
  | none =>
    rw [hc] at h
    simp at h
  | some col =>
    rw [hc] at h
    simp only [] at h
    cases hp : probe (replaceBraces al func) with
    | none =>
      rw [hp] at h
      simp at h
    | some ctype =>
      rw [hp] at h
      have hcpb : (copy_name == "") = false := by
        simpa using hcp
      rw [hcpb] at h
      simp only [Bool.false_eq_true, if_false, Prod.mk.injEq] at h
      exact ⟨col, ctype, rfl, rfl, h.1.symm⟩

theorem apply_ok_self_intro (fr : Frame) (al func : String)
    (probe : String → Option String) (col : VColumn) (ctype : String)
    (hc : fr.lookupCol al = some col)
    (hp : probe (replaceBraces al func) = some ctype) :
    applyFunc fr al func "" probe =
      (applyCommitSelf fr al col func ctype, Except.ok ()) := by
  unfold applyFunc
  rw [hc]
  simp only []
  rw [hp]
  rfl


theorem addHistory_colAliases (fr : Frame) (m : String) :
    (fr.addHistory m).colAliases = fr.colAliases := rfl

/-- The chain an apply success appends: the old chain, the identity padding up
to the maximum referenced depth, and the real step. -/
def newChain (fr : Frame) (col : VColumn) (func ctype : String) : List TransStep :=
  col.transformations ++
    List.replicate (fr.maxRefDepth func - col.transformations.length) (identStep col) ++
    [⟨func, ctype, to_category ctype⟩]

theorem commitSelf_lookup {fr : Frame} {al : String} {col : VColumn} (func ctype : String)
    (h : fr.lookupCol al = some col) :
    (applyCommitSelf fr al col func ctype).lookupCol al =
      some ⟨newChain fr col func ctype, fr.nextCatalog⟩ := by
  have h1 : (fr.setCol al ⟨newChain fr col func ctype, col.catalogId⟩).lookupCol al =
      some ⟨newChain fr col func ctype, col.catalogId⟩ :=
    lookupCol_setCol_self _ h
  simp only [newChain] at h1 ⊢
  simp only [applyCommitSelf]
  rw [addHistory_lookupCol]
  unfold Frame.eraseCatalog
  rw [h1]
  simp only [Frame.lookupCol, Frame.setCol]
  rw [lookupPairs_set_self, lookupPairs_set_self,
    show lookupPairs fr.columns al = some col from h]
  rfl

theorem commitSelf_cachedStat {fr : Frame} {al : String} {col : VColumn}
    (func ctype : String) (h : fr.lookupCol al = some col) (name : String) :
    (applyCommitSelf fr al col func ctype).cachedStat al name = none := by
  have h1 : (fr.setCol al ⟨newChain fr col func ctype, col.catalogId⟩).lookupCol al =
      some ⟨newChain fr col func ctype, col.catalogId⟩ :=
    lookupCol_setCol_self _ h
  simp only [newChain] at h1
  unfold Frame.cachedStat
  simp only [applyCommitSelf]
  rw [addHistory_lookupCol]
  unfold Frame.eraseCatalog
  rw [h1]
  simp only [Frame.lookupCol, Frame.setCol, Frame.addHistory, Frame.catalogOf]
  rw [lookupPairs_set_self, lookupPairs_set_self,
    show lookupPairs fr.columns al = some col from h]
  show statLookup (lookupCat ((fr.nextCatalog, []) :: fr.catalogs) fr.nextCatalog) name = none
  rw [lookupCat_head]
  rfl

theorem commitSelf_history (fr : Frame) (al : String) (col : VColumn)
    (func ctype : String) :
    (applyCommitSelf fr al col func ctype).history =
      fr.history ++ [applyHistMsg al func] := by
  simp only [applyCommitSelf, addHistory_history, eraseCatalog_history, setCol_history]

theorem commitSelf_exclude (fr : Frame) (al : String) (col : VColumn)
    (func ctype : String) :
    (applyCommitSelf fr al col func ctype).excludeColumns = fr.excludeColumns := by
  simp only [applyCommitSelf, addHistory_exclude, eraseCatalog_exclude, setCol_exclude]

theorem commitSelf_colAliases (fr : Frame) (al : String) (col : VColumn)
    (func ctype : String) :
    (applyCommitSelf fr al col func ctype).colAliases = fr.colAliases := by
  simp only [applyCommitSelf, addHistory_colAliases, eraseCatalog_colAliases,
    setCol_colAliases]

theorem add_copy_lookup_cn {fr : Frame} {al : String} {col : VColumn} (copy_name : String)
    (h : fr.lookupCol al = some col) :
    (fr.add_copy al copy_name).lookupCol (quote_ident copy_name) =
      some ⟨col.transformations, fr.nextCatalog⟩ := by
  unfold Frame.add_copy
  rw [h]
  simp only []
  cases hcc : fr.lookupCol (quote_ident copy_name) with
  | some c0 =>
    simp only [Frame.lookupCol] at hcc ⊢
    rw [lookupPairs_set_self, hcc]
    rfl
  | none =>
    simp only [Frame.lookupCol] at hcc ⊢
    rw [lookupPairs_append_none _ hcc]
    simp [lookupPairs]

theorem add_copy_lookup_ne (fr : Frame) (al copy_name y : String)
    (hy : y ≠ quote_ident copy_name) :
    (fr.add_copy al copy_name).lookupCol y = fr.lookupCol y := by
  unfold Frame.add_copy
  cases h : fr.lookupCol al with
  | none => rfl
  | some col =>
    simp only []
    cases hcc : fr.lookupCol (quote_ident copy_name) with
    | some c0 =>
      simp only [Frame.lookupCol]
      exact lookupPairs_set_ne _ _ _ _ hy
    | none =>
      simp only [Frame.lookupCol]
      cases hyl : lookupPairs fr.columns y with
      | some cy => rw [lookupPairs_append_some _ hyl]
      | none =>
        rw [lookupPairs_append_none _ hyl]
        have : ¬ (quote_ident copy_name == y) = true := by
          simp only [beq_iff_eq]
          intro hh
          exact hy hh.symm
        simp [lookupPairs, this, hyl]

theorem add_copy_catalogs {fr : Frame} {al : String} {col : VColumn} (copy_name : String)
    (h : fr.lookupCol al = some col) :
    (fr.add_copy al copy_name).catalogs =
      (fr.nextCatalog, fr.catalogOf col.catalogId) :: fr.catalogs := by
  unfold Frame.add_copy
  rw [h]

theorem add_copy_colAliases_mono {fr : Frame} (al copy_name a : String)
    (ha : a ∈ fr.colAliases) : a ∈ (fr.add_copy al copy_name).colAliases := by
  unfold Frame.add_copy
  cases h : fr.lookupCol al with
  | none => exact ha
  | some col =>
    simp only []
    cases hcc : fr.lookupCol (quote_ident copy_name) with
    | some c0 =>
      simpa [Frame.colAliases, mapFst_setPairs] using ha
    | none =>
      simp only [Frame.colAliases, List.map_append, List.mem_append]
      exact Or.inl ha

theorem commitCopy_lookup_cn {fr : Frame} {al : String} {col : VColumn}
    (func copy_name ctype : String) (h : fr.lookupCol al = some col) :
    (applyCommitCopy fr al col func copy_name ctype).lookupCol
        (quote_ident copy_name) =
      some ⟨newChain fr col func ctype, col.catalogId⟩ := by
  have h1 := add_copy_lookup_cn copy_name h
  simp only [applyCommitCopy]
  rw [addHistory_lookupCol]
  rw [modifyCol_lookup_self _ (modifyCol_lookup_self _ h1)]
  simp [newChain]

theorem commitCopy_lookup_al {fr : Frame} {al : String} {col : VColumn}
    (func copy_name ctype : String) (h : fr.lookupCol al = some col)
    (hne : quote_ident copy_name ≠ al) :
    (applyCommitCopy fr al col func copy_name ctype).lookupCol al = some col := by
  have hne2 : al ≠ quote_ident copy_name := fun hh => hne hh.symm
  simp only [applyCommitCopy]
  rw [addHistory_lookupCol, modifyCol_lookup_ne _ _ _ _ hne2,
    modifyCol_lookup_ne _ _ _ _ hne2, add_copy_lookup_ne _ _ _ _ hne2, h]

theorem commitCopy_catalogs {fr : Frame} {al : String} {col : VColumn}
    (func copy_name ctype : String) (h : fr.lookupCol al = some col) :
    (applyCommitCopy fr al col func copy_name ctype).catalogs =
      (fr.nextCatalog, fr.catalogOf col.catalogId) :: fr.catalogs := by
  simp only [applyCommitCopy]
  rw [addHistory_catalogs, modifyCol_catalogs, modifyCol_catalogs,
    add_copy_catalogs copy_name h]

theorem commitCopy_history (fr : Frame) (al : String) (col : VColumn)
    (func copy_name ctype : String) :
    (applyCommitCopy fr al col func copy_name ctype).history =
      fr.history ++ [applyHistMsg al func] := by
  simp only [applyCommitCopy]
  rw [addHistory_history, modifyCol_history, modifyCol_history, add_copy_history]

theorem commitCopy_exclude (fr : Frame) (al : String) (col : VColumn)
    (func copy_name ctype : String) :
    (applyCommitCopy fr al col func copy_name ctype).excludeColumns =
      fr.excludeColumns := by
  simp only [applyCommitCopy]
  rw [addHistory_exclude, modifyCol_exclude, modifyCol_exclude, add_copy_exclude]

theorem commitCopy_colAliases_mono {fr : Frame} (al : String) (col : VColumn)
    (func copy_name ctype a : String) (ha : a ∈ fr.colAliases) :
    a ∈ (applyCommitCopy fr al col func copy_name ctype).colAliases := by
  simp only [applyCommitCopy]
  rw [addHistory_colAliases, modifyCol_colAliases, modifyCol_colAliases]
  exact add_copy_colAliases_mono _ _ _ ha

theorem depthOf_of_lookup {fr : Frame} {al : String} {c : VColumn}
    (h : fr.lookupCol al = some c) : fr.depthOf al = c.transformations.length := by
  unfold Frame.depthOf
  rw [h]

theorem newChain_length (fr : Frame) (col : VColumn) (func ctype : String) :
    (newChain fr col func ctype).length =
      max (col.transformations.length) (fr.maxRefDepth func) + 1 := by
  simp only [newChain, List.length_append, List.length_replicate, List.length_singleton]
  omega

theorem getLast_append_one (l : List TransStep) (x : TransStep) :
    (l ++ [x]).getLast? = some x := by
  rw [List.getLast?_concat]

theorem apply_depth_le (fr : Frame) (al func : String) (probe : String → Option String) :
    fr.depthOf al ≤ ((applyFunc fr al func "" probe).1).depthOf al := by
  rcases hr : applyFunc fr al func "" probe with ⟨fr2, r⟩
  simp only []
  cases r with
  | error e =>
    rw [apply_error_unchanged _ _ _ _ _ _ _ hr]
  | ok u =>
    cases u
    obtain ⟨col, ctype, hc, hp, hfr⟩ := apply_ok_self_elim hr
    subst hfr
    rw [depthOf_of_lookup hc, depthOf_of_lookup (commitSelf_lookup func ctype hc),
      newChain_length]
    omega

theorem applySeq_depth_le (al : String)
    (ops : List (String × (String → Option String))) :
    ∀ fr : Frame, fr.depthOf al ≤ (applySeq al fr ops).depthOf al := by
  induction ops with
  | nil => intro fr; exact le_refl _
  | cons p rest ih =>
    intro fr
    obtain ⟨f, pr⟩ := p
    calc fr.depthOf al ≤ ((applyFunc fr al f "" pr).1).depthOf al :=
          apply_depth_le fr al f pr
      _ ≤ (applySeq al ((applyFunc fr al f "" pr).1) rest).depthOf al :=
          ih ((applyFunc fr al f "" pr).1)

theorem applyFst_exclude (fr : Frame) (al func copy_name : String)
    (probe : String → Option String) :
    ((applyFunc fr al func copy_name probe).1).excludeColumns = fr.excludeColumns := by
  rcases hr : applyFunc fr al func copy_name probe with ⟨fr2, r⟩
  simp only []
  cases r with
  | error e => rw [apply_error_unchanged _ _ _ _ _ _ _ hr]
  | ok u =>
    cases u
    by_cases hcp : copy_name = ""
    · subst hcp
      obtain ⟨col, ctype, hc, hp, hfr⟩ := apply_ok_self_elim hr
      subst hfr
      exact commitSelf_exclude _ _ _ _ _
    · obtain ⟨col, ctype, hc, hp, hfr⟩ := apply_ok_copy_elim hcp hr
      subst hfr
      exact commitCopy_exclude _ _ _ _ _ _

theorem applyFst_colAliases_mono (fr : Frame) (al func copy_name : String)
    (probe : String → Option String) (a : String) (ha : a ∈ fr.colAliases) :
    a ∈ ((applyFunc fr al func copy_name probe).1).colAliases := by
  rcases hr : applyFunc fr al func copy_name probe with ⟨fr2, r⟩
  simp only []
  cases r with
  | error e => rw [apply_error_unchanged _ _ _ _ _ _ _ hr]; exact ha
  | ok u =>
    cases u
    by_cases hcp : copy_name = ""
    · subst hcp
      obtain ⟨col, ctype, hc, hp, hfr⟩ := apply_ok_self_elim hr
      subst hfr
      rw [commitSelf_colAliases]
      exact ha
    · obtain ⟨col, ctype, hc, hp, hfr⟩ := apply_ok_copy_elim hcp hr
      subst hfr
      exact commitCopy_colAliases_mono _ _ _ _ _ _ ha

theorem evalColumn_exclude (fr : Frame) (n e t : String) :
    (fr.evalColumn n e t).excludeColumns = fr.excludeColumns := by
  unfold Frame.evalColumn
  simp only []
  cases h : fr.lookupCol (quote_ident n) with
  | some c => exact applyFst_exclude _ _ _ _ _
  | none => rfl

theorem evalColumn_alias_mono (fr : Frame) (n e t a : String)
    (ha : a ∈ fr.colAliases) : a ∈ (fr.evalColumn n e t).colAliases := by
  unfold Frame.evalColumn
  simp only []
  cases h : fr.lookupCol (quote_ident n) with
  | some c => exact applyFst_colAliases_mono _ _ _ _ _ _ ha
  | none =>
    simp only [Frame.colAliases, List.map_append, List.mem_append]
    exact Or.inl ha

theorem evalColumn_alias_new (fr : Frame) (n e t : String) :
    quote_ident n ∈ (fr.evalColumn n e t).colAliases := by
  unfold Frame.evalColumn
  simp only []
  cases h : fr.lookupCol (quote_ident n) with
  | some c =>
    exact applyFst_colAliases_mono _ _ _ _ _ _ (lookupPairs_mem h)
  | none =>
    simp [Frame.colAliases]

theorem exclude_not_in_get_columns (fr : Frame) (q : String)
    (hq : q ∈ fr.excludeColumns) : q ∉ fr.get_columns := by
  intro hmem
  unfold Frame.get_columns at hmem
  rw [List.mem_filter] at hmem
  exact (of_decide_eq_true hmem.2) hq

theorem setCachedStat_lookupCol (fr : Frame) (a n v y : String) :
    (fr.setCachedStat a n v).lookupCol y = fr.lookupCol y := by
  unfold Frame.setCachedStat
  split <;> rfl

theorem setCachedStat_reads {fr : Frame} {a b : String} {ca cb : VColumn}
    (h : fr.lookupCol a = some ca) (hb : fr.lookupCol b = some cb)
    (hid : cb.catalogId = ca.catalogId) (n v : String) :
    (fr.setCachedStat a n v).cachedStat b n = some v := by
  unfold Frame.setCachedStat
  rw [h]
  unfold Frame.cachedStat
  rw [show ({ fr with catalogs :=
      (ca.catalogId, statUpsert n v (fr.catalogOf ca.catalogId)) ::
        fr.catalogs } : Frame).lookupCol b = some cb from hb]
  simp only [Frame.catalogOf]
  rw [hid, lookupCat_head, statLookup_upsert_self]

theorem analytic_eq_kurtosis (fr : Frame) (column : String) (byCols : List String)
    (name : String) (rnb : Nat) (t : String) :
    fr.analyticMoment "kurtosis" column byCols name rnb t =
      (let byJ := String.intercalate ", " byCols
       let by_ := if byJ == "" then "" else "PARTITION BY " ++ byJ
       let fr2 := ((fr.evalColumn (meanNameOf column rnb) (meanExpr column by_) t).evalColumn
           (stdNameOf column rnb) (stdExpr column by_) t).evalColumn
           (countNameOf column rnb) (countExpr column by_) t
       let fr3 := fr2.evalColumn name
         (kurtosisExpr column (meanNameOf column rnb) (stdNameOf column rnb)
           (countNameOf column rnb) by_) t
       { fr3 with excludeColumns := fr3.excludeColumns ++
           [quote_ident (meanNameOf column rnb), quote_ident (stdNameOf column rnb),
            quote_ident (countNameOf column rnb)] }) := rfl

theorem analytic_eq_skewness (fr : Frame) (column : String) (byCols : List String)
    (name : String) (rnb : Nat) (t : String) :
    fr.analyticMoment "skewness" column byCols name rnb t =
      (let byJ := String.intercalate ", " byCols
       let by_ := if byJ == "" then "" else "PARTITION BY " ++ byJ
       let fr2 := ((fr.evalColumn (meanNameOf column rnb) (meanExpr column by_) t).evalColumn
           (stdNameOf column rnb) (stdExpr column by_) t).evalColumn
           (countNameOf column rnb) (countExpr column by_) t
       let fr3 := fr2.evalColumn name
         (skewnessExpr column (meanNameOf column rnb) (stdNameOf column rnb)
           (countNameOf column rnb) by_) t
       { fr3 with excludeColumns := fr3.excludeColumns ++
           [quote_ident (meanNameOf column rnb), quote_ident (stdNameOf column rnb),
            quote_ident (countNameOf column rnb)] }) := rfl

theorem analytic_eq_jb (fr : Frame) (column : String) (byCols : List String)
    (name : String) (rnb : Nat) (t : String) :
    fr.analyticMoment "jb" column byCols name rnb t =
      (let byJ := String.intercalate ", " byCols
       let by_ := if byJ == "" then "" else "PARTITION BY " ++ byJ
       let fr2 := ((fr.evalColumn (meanNameOf column rnb) (meanExpr column by_) t).evalColumn
           (stdNameOf column rnb) (stdExpr column by_) t).evalColumn
           (countNameOf column rnb) (countExpr column by_) t
       let fr3 := fr2.evalColumn name
         (jbExpr column (meanNameOf column rnb) (stdNameOf column rnb)
           (countNameOf column rnb) by_) t
       { fr3 with excludeColumns := fr3.excludeColumns ++
           [quote_ident (meanNameOf column rnb), quote_ident (stdNameOf column rnb),
            quote_ident (countNameOf column rnb)] }) := rfl

theorem analytic_eq_aad (fr : Frame) (column : String) (byCols : List String)
    (name : String) (rnb : Nat) (t : String) :
    fr.analyticMoment "aad" column byCols name rnb t =
      (let byJ := String.intercalate ", " byCols
       let by_ := if byJ == "" then "" else "PARTITION BY " ++ byJ
       let fr1 := fr.evalColumn (meanNameOf column rnb) (meanExpr column by_) t
       let fr3 := fr1.evalColumn name (aadExpr column (meanNameOf column rnb) by_) t
       { fr3 with excludeColumns := fr3.excludeColumns ++
           [quote_ident (meanNameOf column rnb)] }) := rfl

theorem analytic_eq_mad (fr : Frame) (column : String) (byCols : List String)
    (name : String) (rnb : Nat) (t : String) :
    fr.analyticMoment "mad" column byCols name rnb t =
      (let byJ := String.intercalate ", " byCols
       let by_ := if byJ == "" then "" else "PARTITION BY " ++ byJ
       let fr1 := fr.evalColumn (medianNameOf column rnb) (medianExpr column by_) t
       let fr3 := fr1.evalColumn name (madExpr column (medianNameOf column rnb) by_) t
       { fr3 with excludeColumns := fr3.excludeColumns ++
           [quote_ident (medianNameOf column rnb)] }) := rfl

/-- A helper column is hidden: it is on the exclude list, still present in the
column mapping, and therefore absent from the default all-columns view. -/
def helperHidden (fr : Frame) (q : String) : Prop :=
  q ∈ fr.excludeColumns ∧ q ∈ fr.colAliases ∧ q ∉ fr.get_columns

/-- A probe that always infers the integer type: the zero-row query succeeds. -/
def probeInt : String → Option String := fun _ => some "int"

/-- A probe that always fails: the zero-row query raises. -/
def probeFail : String → Option String := fun _ => none

/-- A one-step chain: the raw column. -/
def chainId : List TransStep := [⟨"\x7b\x7d", "int", "int"⟩]

/-- A two-step chain: the raw column followed by one transformation. -/
def chainAbs : List TransStep := [⟨"\x7b\x7d", "int", "int"⟩, ⟨"ABS(\x7b\x7d)", "int", "int"⟩]

/-- Fixture column of depth 2 whose catalog holds a cached mean. -/
def colA : VColumn := ⟨chainAbs, 0⟩

/-- Fixture frame with one column of depth 2 and a cached statistic. -/
def frA : Frame :=
  { columns := [("\"a\"", colA)],
    catalogs := [(0, [("mean", "3")])], nextCatalog := 1,
    excludeColumns := [], history := [] }

/-- Fixture frame with a column of depth 2 and a column of depth 1. -/
def frC2 : Frame :=
  { columns := [("\"a\"", ⟨chainAbs, 0⟩), ("\"b\"", ⟨chainId, 1⟩)],
    catalogs := [(0, []), (1, [])], nextCatalog := 2,
    excludeColumns := [], history := [] }

/-- C1: the dependency test of vDCMATH.apply is claimed to count a column
referenced in unquoted word-boundary form.  The code does not: the re module
is never imported, the NameError is swallowed by the bare except, so only
quoted containment counts.  At the failing input, the expression a + 2 + the
placeholder references column a only in unquoted form: the specified test
accepts it, the code test rejects it, and the maximum referenced depth the
code computes stays 0, leaving the target depth at 2 instead of the aligned 3. -/
theorem c1_dependency_test_misses_unquoted :
    dependsOnCode "a + \x7b\x7d" "\"a\"" = false ∧
    referencesIdentifierSpec "a + \x7b\x7d" "\"a\"" = true ∧
    frC2.maxRefDepth "a + \x7b\x7d" = 0 ∧
    frC2.depthOf "\"a\"" = 2 ∧
    (applyFunc frC2 "\"b\"" "a + \x7b\x7d" "" probeInt).2 = Except.ok () ∧
    (applyFunc frC2 "\"b\"" "a + \x7b\x7d" "" probeInt).1.depthOf "\"b\"" = 2 :=
  ⟨rfl, rfl, rfl, rfl, rfl, rfl⟩

/-- C2 counterexample: a successful apply on column b whose template references
the deeper column a in quoted form increases the depth of b from 1 to 3, not
by exactly 1 as the claim states. -/
theorem c2_counterexample_depth_jump :
    (applyFunc frC2 "\"b\"" "\"a\" + \x7b\x7d" "" probeInt).2 = Except.ok () ∧
    frC2.depthOf "\"b\"" = 1 ∧
    (applyFunc frC2 "\"b\"" "\"a\" + \x7b\x7d" "" probeInt).1.depthOf "\"b\"" = 3 :=
  ⟨rfl, rfl, rfl⟩

/-- C2 (amended): the chain depth of a column is non-decreasing under any
apply call and any sequence of apply calls targeting it, and a single
successful call sets the depth to max(current depth, maximum referenced
depth) + 1 — an increase of exactly 1 only when no referenced column is
deeper than the target. -/
theorem c2_depth_monotone_and_increment (fr fr2 : Frame) (al func : String)
    (probe : String → Option String) (r : Except String Unit)
    (h : applyFunc fr al func "" probe = (fr2, r)) :
    fr.depthOf al ≤ fr2.depthOf al ∧
    (r = Except.ok () →
      fr2.depthOf al = max (fr.depthOf al) (fr.maxRefDepth func) + 1) ∧
    ∀ ops, fr2.depthOf al ≤ (applySeq al fr2 ops).depthOf al := by
  refine ⟨?_, ?_, fun ops => applySeq_depth_le al ops fr2⟩
  · have hle := apply_depth_le fr al func probe
    rw [h] at hle
    exact hle
  · intro hok
    subst hok
    obtain ⟨col, ct, hc, hp, hfr⟩ := apply_ok_self_elim h
    subst hfr
    rw [depthOf_of_lookup (commitSelf_lookup func ct hc), newChain_length,
      depthOf_of_lookup hc]

/-- C2 witness: the amended theorem applied at a concrete frame and call. -/
theorem c2_witness :
    frA.depthOf "\"a\"" ≤
      (applyFunc frA "\"a\"" "ABS(\x7b\x7d)" "" probeInt).1.depthOf "\"a\"" ∧
    (applyFunc frA "\"a\"" "ABS(\x7b\x7d)" "" probeInt).1.depthOf "\"a\"" =
      max (frA.depthOf "\"a\"") (frA.maxRefDepth "ABS(\x7b\x7d)") + 1 :=
  have th := c2_depth_monotone_and_increment frA
    ((applyFunc frA "\"a\"" "ABS(\x7b\x7d)" "" probeInt).1) "\"a\"" "ABS(\x7b\x7d)"
    probeInt (Except.ok ()) rfl
  ⟨th.1, th.2.1 rfl⟩

/-- C3 counterexample: apply with copy name b on source column a of depth 2,
with a template that references no column, creates the copy with depth 3 = the
source depth + 1, not depth 1 = maximum referenced depth + 1 as the claim
requires. -/
theorem c3_counterexample_copy_depth :
    (applyFunc frA "\"a\"" "ABS(\x7b\x7d)" "b" probeInt).2 = Except.ok () ∧
    frA.maxRefDepth "ABS(\x7b\x7d)" = 0 ∧
    (applyFunc frA "\"a\"" "ABS(\x7b\x7d)" "b" probeInt).1.depthOf "\"b\"" = 3 :=
  ⟨rfl, rfl, rfl⟩

/-- C3 (amended): on a successful apply with a copy name, the new column
receives the source chain, identity padding only up to the maximum referenced
depth when that exceeds the source depth, and then the real step; its final
depth is max(source depth, maximum referenced depth) + 1. -/
theorem c3_copy_chain_padding (fr fr2 : Frame) (al func copy_name : String)
    (probe : String → Option String) (col : VColumn)
    (hc : fr.lookupCol al = some col) (hcp : copy_name ≠ "")
    (h : applyFunc fr al func copy_name probe = (fr2, Except.ok ())) :
    ∃ ct, fr2.lookupCol (quote_ident copy_name) =
        some ⟨newChain fr col func ct, col.catalogId⟩ ∧
      fr2.depthOf (quote_ident copy_name) =
        max col.transformations.length (fr.maxRefDepth func) + 1 := by
  obtain ⟨col0, ct, hc0, hp, hfr⟩ := apply_ok_copy_elim hcp h
  rw [hc] at hc0
  injection hc0 with e2
  subst e2
  subst hfr
  refine ⟨ct, commitCopy_lookup_cn func copy_name ct hc, ?_⟩
  rw [depthOf_of_lookup (commitCopy_lookup_cn func copy_name ct hc), newChain_length]

/-- C3 witness: the amended theorem applied at a concrete frame and call. -/
theorem c3_witness :
    ∃ ct, (applyFunc frA "\"a\"" "ABS(\x7b\x7d)" "b" probeInt).1.lookupCol
        (quote_ident "b") =
        some ⟨newChain frA colA "ABS(\x7b\x7d)" ct, colA.catalogId⟩ ∧
      (applyFunc frA "\"a\"" "ABS(\x7b\x7d)" "b" probeInt).1.depthOf
        (quote_ident "b") =
        max colA.transformations.length (frA.maxRefDepth "ABS(\x7b\x7d)") + 1 :=
  c3_copy_chain_padding frA ((applyFunc frA "\"a\"" "ABS(\x7b\x7d)" "b" probeInt).1)
    "\"a\"" "ABS(\x7b\x7d)" "b" probeInt colA rfl (by decide) rfl

/-- C4: a successful apply on a column without copy name leaves every cached
statistic of that column absent: the erase call clears the whole catalog. -/
theorem c4_apply_clears_cache (fr fr2 : Frame) (al func : String)
    (probe : String → Option String)
    (h : applyFunc fr al func "" probe = (fr2, Except.ok ())) :
    ∀ name, fr2.cachedStat al name = none := by
  obtain ⟨col, ct, hc, hp, hfr⟩ := apply_ok_self_elim h
  subst hfr
  intro name
  exact commitSelf_cachedStat func ct hc name

/-- C4 witness: a statistic cached before the apply is absent afterwards. -/
theorem c4_witness :
    frA.cachedStat "\"a\"" "mean" = some "3" ∧
    (applyFunc frA "\"a\"" "ABS(\x7b\x7d)" "" probeInt).1.cachedStat "\"a\"" "mean" =
      none :=
  ⟨rfl, c4_apply_clears_cache frA
    ((applyFunc frA "\"a\"" "ABS(\x7b\x7d)" "" probeInt).1) "\"a\"" "ABS(\x7b\x7d)"
    probeInt rfl "mean"⟩

/-- C5: a failed apply (the type-inference probe fails, or the column is
missing) leaves the frame completely unchanged — no step appended, no cache
cleared, no history entry, no new column — and the error is returned to the
caller.  In the embedding every failure point of the source precedes the
first mutation, so the returned state is the input state. -/
theorem c5_failed_apply_unchanged (fr fr2 : Frame) (al func copy_name : String)
    (probe : String → Option String) (e : String)
    (h : applyFunc fr al func copy_name probe = (fr2, Except.error e)) :
    fr2 = fr :=
  apply_error_unchanged fr fr2 al func copy_name probe e h

/-- C5 witness: a failing probe returns the fixture frame untouched. -/
theorem c5_witness :
    (applyFunc frA "\"a\"" "ABS(\x7b\x7d)" "" probeFail).1 = frA :=
  c5_failed_apply_unchanged frA
    ((applyFunc frA "\"a\"" "ABS(\x7b\x7d)" "" probeFail).1) "\"a\"" "ABS(\x7b\x7d)"
    "" probeFail (applyErrMsg "\"a\"" "ABS(\x7b\x7d)") rfl

/-- C6 counterexample: a template with zero placeholder markers is not
rejected: the apply succeeds and appends the step, growing the chain of the
target from 2 to 3. -/
theorem c6_counterexample_no_rejection :
    placeholderCount "1 + 2" = 0 ∧
    (applyFunc frA "\"a\"" "1 + 2" "" probeInt).2 = Except.ok () ∧
    (applyFunc frA "\"a\"" "1 + 2" "" probeInt).1.depthOf "\"a\"" = 3 :=
  ⟨rfl, rfl, rfl⟩

/-- C6 (amended): vDCMATH.apply performs no placeholder-count validation.  A
template with zero or more than one placeholder marker is accepted: whenever
the probe on the substituted expression succeeds, the call returns success and
the step is appended verbatim as the last chain entry. -/
theorem c6_no_placeholder_validation (fr : Frame) (al func : String)
    (probe : String → Option String) (col : VColumn) (ct : String)
    (hc : fr.lookupCol al = some col)
    (hp : probe (replaceBraces al func) = some ct)
    (hph : placeholderCount func ≠ 1) :
    (applyFunc fr al func "" probe).2 = Except.ok () ∧
    ∃ c2, (applyFunc fr al func "" probe).1.lookupCol al = some c2 ∧
      c2.transformations.getLast? = some ⟨func, ct, to_category ct⟩ := by
  rw [apply_ok_self_intro fr al func probe col ct hc hp]
  refine ⟨rfl, ⟨newChain fr col func ct, fr.nextCatalog⟩, ?_, ?_⟩
  · exact commitSelf_lookup func ct hc
  · simp only [newChain]
    exact getLast_append_one _ _

/-- C6 witness: the amended theorem at a concrete zero-placeholder template. -/
theorem c6_witness :
    (applyFunc frA "\"a\"" "1 + 2" "" probeInt).2 = Except.ok () ∧
    ∃ c2, (applyFunc frA "\"a\"" "1 + 2" "" probeInt).1.lookupCol "\"a\"" = some c2 ∧
      c2.transformations.getLast? = some ⟨"1 + 2", "int", to_category "int"⟩ :=
  c6_no_placeholder_validation frA "\"a\"" "1 + 2" probeInt colA "int"
    rfl rfl (by decide)

/-- C8: every successful apply appends exactly one history entry, and no
apply call — successful or failed — ever removes or modifies an existing
entry: the old history is always a front segment of the new one. -/
theorem c8_history_append_only (fr fr2 : Frame) (al func copy_name : String)
    (probe : String → Option String) (r : Except String Unit)
    (h : applyFunc fr al func copy_name probe = (fr2, r)) :
    (r = Except.ok () → fr2.history = fr.history ++ [applyHistMsg al func]) ∧
    ∃ tail, fr2.history = fr.history ++ tail := by
  cases r with
  | error e =>
    have he := apply_error_unchanged _ _ _ _ _ _ _ h
    subst he
    refine ⟨fun hok => ?_, ⟨[], by simp⟩⟩
    simp at hok
  | ok u =>
    cases u
    by_cases hcp : copy_name = ""
    · subst hcp
      obtain ⟨col, ct, hc, hp, hfr⟩ := apply_ok_self_elim h
      subst hfr
      exact ⟨fun _ => commitSelf_history _ _ _ _ _,
        ⟨[applyHistMsg al func], commitSelf_history _ _ _ _ _⟩⟩
    · obtain ⟨col, ct, hc, hp, hfr⟩ := apply_ok_copy_elim hcp h
      subst hfr
      exact ⟨fun _ => commitCopy_history _ _ _ _ _ _,
        ⟨[applyHistMsg al func], commitCopy_history _ _ _ _ _ _⟩⟩

/-- C8 witness: the theorem at a concrete successful apply. -/
theorem c8_witness :
    (applyFunc frA "\"a\"" "ABS(\x7b\x7d)" "" probeInt).1.history =
      frA.history ++ [applyHistMsg "\"a\"" "ABS(\x7b\x7d)"] :=
  (c8_history_append_only frA ((applyFunc frA "\"a\"" "ABS(\x7b\x7d)" "" probeInt).1)
    "\"a\"" "ABS(\x7b\x7d)" "" probeInt (Except.ok ()) rfl).1 rfl

/-- C9: after a successful apply with a copy name, the new column holds the
very same catalog object as the source column — a statistic stored through
either column is readable through the other — and the cache of the new column
is the unchanged cache of the source, not a cleared one, even though its chain
just received a new step. -/
theorem c9_copy_shares_catalog (fr fr2 : Frame) (al func copy_name : String)
    (probe : String → Option String) (col : VColumn)
    (hc : fr.lookupCol al = some col) (hcp : copy_name ≠ "")
    (hne : quote_ident copy_name ≠ al)
    (h : applyFunc fr al func copy_name probe = (fr2, Except.ok ())) :
    (∃ cc, fr2.lookupCol (quote_ident copy_name) = some cc ∧
      cc.catalogId = col.catalogId) ∧
    (∀ n v, (fr2.setCachedStat (quote_ident copy_name) n v).cachedStat al n = some v ∧
      (fr2.setCachedStat al n v).cachedStat (quote_ident copy_name) n = some v) ∧
    (∀ n, fr2.cachedStat (quote_ident copy_name) n = fr.cachedStat al n) := by
  obtain ⟨col0, ct, hc0, hp, hfr⟩ := apply_ok_copy_elim hcp h
  rw [hc] at hc0
  injection hc0 with e2
  subst e2
  subst hfr
  have hcn := commitCopy_lookup_cn func copy_name ct hc
  have hal := commitCopy_lookup_al func copy_name ct hc hne
  have hcat := commitCopy_catalogs func copy_name ct hc
  refine ⟨⟨_, hcn, rfl⟩, ?_, ?_⟩
  · intro n v
    exact ⟨setCachedStat_reads hcn hal rfl n v, setCachedStat_reads hal hcn rfl n v⟩
  · intro n
    unfold Frame.cachedStat
    rw [hcn, hc]
    simp only [Frame.catalogOf]
    rw [hcat]
    rw [show (⟨newChain fr col func ct, col.catalogId⟩ : VColumn).catalogId =
      col.catalogId from rfl]
    rw [show fr.catalogOf col.catalogId = lookupCat fr.catalogs col.catalogId from rfl]
    rw [lookupCat_shadow]

/-- C9 witness: the theorem at a concrete copy-apply, reading through the
source a statistic stored through the copy. -/
theorem c9_witness :
    (((applyFunc frA "\"a\"" "ABS(\x7b\x7d)" "b" probeInt).1.setCachedStat
        (quote_ident "b") "max" "9").cachedStat "\"a\"" "max" = some "9") ∧
    (applyFunc frA "\"a\"" "ABS(\x7b\x7d)" "b" probeInt).1.cachedStat
      (quote_ident "b") "mean" = frA.cachedStat "\"a\"" "mean" :=
  have th := c9_copy_shares_catalog frA
    ((applyFunc frA "\"a\"" "ABS(\x7b\x7d)" "b" probeInt).1) "\"a\"" "ABS(\x7b\x7d)"
    "b" probeInt colA rfl (by decide) (by decide) rfl
  ⟨(th.2.1 "max" "9").1, th.2.2 "mean"⟩

theorem helperHidden_of (fr3 : Frame) (tail : List String) (q : String)
    (hq : q ∈ tail) (hal2 : q ∈ fr3.colAliases) :
    helperHidden { fr3 with excludeColumns := fr3.excludeColumns ++ tail } q := by
  have hex : q ∈ ({ fr3 with excludeColumns := fr3.excludeColumns ++ tail } :
      Frame).excludeColumns := by
    simp only [List.mem_append]
    exact Or.inr hq
  exact ⟨hex, hal2, exclude_not_in_get_columns _ _ hex⟩

/-- C7: after an analytic call with func among kurtosis, skewness and jb, the
quoted names of the internally created mean, std and count helper columns are
members of the exclude set (for aad the mean helper, for mad the median
helper); each helper is present in the column mapping yet absent from the
default all-columns view. -/
theorem c7_analytic_helpers_hidden (fr : Frame) (column : String)
    (byCols : List String) (name : String) (rnb : Nat) (t : String)
    (func : String) :
    (func ∈ (["kurtosis", "skewness", "jb"] : List String) →
      helperHidden (fr.analyticMoment func column byCols name rnb t)
        (quote_ident (meanNameOf column rnb)) ∧
      helperHidden (fr.analyticMoment func column byCols name rnb t)
        (quote_ident (stdNameOf column rnb)) ∧
      helperHidden (fr.analyticMoment func column byCols name rnb t)
        (quote_ident (countNameOf column rnb))) ∧
    (func = "aad" →
      helperHidden (fr.analyticMoment func column byCols name rnb t)
        (quote_ident (meanNameOf column rnb))) ∧
    (func = "mad" →
      helperHidden (fr.analyticMoment func column byCols name rnb t)
        (quote_ident (medianNameOf column rnb))) := by
  refine ⟨?_, ?_, ?_⟩
  · intro hf
    simp only [List.mem_cons, List.not_mem_nil, or_false] at hf
    rcases hf with rfl | rfl | rfl
    · simp only [analytic_eq_kurtosis]
      refine ⟨helperHidden_of _ _ _ (by simp) ?_,
        helperHidden_of _ _ _ (by simp) ?_, helperHidden_of _ _ _ (by simp) ?_⟩
      · exact evalColumn_alias_mono _ _ _ _ _ (evalColumn_alias_mono _ _ _ _ _
          (evalColumn_alias_mono _ _ _ _ _ (evalColumn_alias_new _ _ _ _)))
      · exact evalColumn_alias_mono _ _ _ _ _ (evalColumn_alias_mono _ _ _ _ _
          (evalColumn_alias_new _ _ _ _))
      · exact evalColumn_alias_mono _ _ _ _ _ (evalColumn_alias_new _ _ _ _)
    · simp only [analytic_eq_skewness]
      refine ⟨helperHidden_of _ _ _ (by simp) ?_,
        helperHidden_of _ _ _ (by simp) ?_, helperHidden_of _ _ _ (by simp) ?_⟩
      · exact evalColumn_alias_mono _ _ _ _ _ (evalColumn_alias_mono _ _ _ _ _
          (evalColumn_alias_mono _ _ _ _ _ (evalColumn_alias_new _ _ _ _)))
      · exact evalColumn_alias_mono _ _ _ _ _ (evalColumn_alias_mono _ _ _ _ _
          (evalColumn_alias_new _ _ _ _))
      · exact evalColumn_alias_mono _ _ _ _ _ (evalColumn_alias_new _ _ _ _)
    · simp only [analytic_eq_jb]
      refine ⟨helperHidden_of _ _ _ (by simp) ?_,
        helperHidden_of _ _ _ (by simp) ?_, helperHidden_of _ _ _ (by simp) ?_⟩
      · exact evalColumn_alias_mono _ _ _ _ _ (evalColumn_alias_mono _ _ _ _ _
          (evalColumn_alias_mono _ _ _ _ _ (evalColumn_alias_new _ _ _ _)))
      · exact evalColumn_alias_mono _ _ _ _ _ (evalColumn_alias_mono _ _ _ _ _
          (evalColumn_alias_new _ _ _ _))
      · exact evalColumn_alias_mono _ _ _ _ _ (evalColumn_alias_new _ _ _ _)
  · intro hf
    subst hf
    simp only [analytic_eq_aad]
    exact helperHidden_of _ _ _ (by simp)
      (evalColumn_alias_mono _ _ _ _ _ (evalColumn_alias_new _ _ _ _))
  · intro hf
    subst hf
    simp only [analytic_eq_mad]
    exact helperHidden_of _ _ _ (by simp)
      (evalColumn_alias_mono _ _ _ _ _ (evalColumn_alias_new _ _ _ _))

/-- C7 witness: a concrete kurtosis call on the fixture frame. -/
theorem c7_witness :
    helperHidden (frA.analyticMoment "kurtosis" "\"a\"" [] "\"k\"" 7 "float")
      (quote_ident (meanNameOf "\"a\"" 7)) ∧
    helperHidden (frA.analyticMoment "kurtosis" "\"a\"" [] "\"k\"" 7 "float")
      (quote_ident (stdNameOf "\"a\"" 7)) ∧
    helperHidden (frA.analyticMoment "kurtosis" "\"a\"" [] "\"k\"" 7 "float")
      (quote_ident (countNameOf "\"a\"" 7)) :=
  (c7_analytic_helpers_hidden frA "\"a\"" [] "\"k\"" 7 "float" "kurtosis").1
    (by decide)

/-- C10: for any scalar category (neither vmap nor complex), apply_fun with
len or length builds the template LENTGH on the placeholder — the misspelled
function name — while get_len selects the function name LENGTH; the two never
agree, and a successful apply_fun len call stores the misspelled template as
the last chain step. -/
theorem c10_len_uses_misspelled_name (cat : String) (x : PyArg)
    (h1 : cat ≠ "vmap") (h2 : cat ≠ "complex") :
    apply_fun_expr "len" cat x = "LENTGH(\x7b\x7d)" ∧
    apply_fun_expr "length" cat x = "LENTGH(\x7b\x7d)" ∧
    get_len_fun cat = "LENGTH" ∧
    funcNameOf (apply_fun_expr "len" cat x) ≠ get_len_fun cat ∧
    ∀ (fr : Frame) (al2 : String) (col : VColumn)
      (probe : String → Option String) (ct : String),
      fr.lookupCol al2 = some col → col.category = cat →
      probe (replaceBraces al2 "LENTGH(\x7b\x7d)") = some ct →
      ∃ c2, ((fr.apply_fun al2 "len" x probe).1).lookupCol al2 = some c2 ∧
        c2.transformations.getLast? =
          some ⟨"LENTGH(\x7b\x7d)", ct, to_category ct⟩ := by
  have hv : (cat == "vmap") = false := by simpa using h1
  have hx2 : (cat == "complex") = false := by simpa using h2
  have e1 : apply_fun_expr "len" cat x = "LENTGH(\x7b\x7d)" := by
    simp only [apply_fun_expr, hv, hx2]
    rfl
  have e2 : apply_fun_expr "length" cat x = "LENTGH(\x7b\x7d)" := by
    simp only [apply_fun_expr, hv, hx2]
    rfl
  have e3 : get_len_fun cat = "LENGTH" := by
    simp only [get_len_fun, hv, hx2]
    rfl
  refine ⟨e1, e2, e3, ?_, ?_⟩
  · rw [e1, e3]
    decide
  · intro fr al2 col probe ct hcl hcat hp
    unfold Frame.apply_fun
    rw [hcl]
    simp only []
    rw [hcat, e1]
    rw [apply_ok_self_intro fr al2 "LENTGH(\x7b\x7d)" probe col ct hcl hp]
    refine ⟨⟨newChain fr col "LENTGH(\x7b\x7d)" ct, fr.nextCatalog⟩, ?_, ?_⟩
    · exact commitSelf_lookup _ ct hcl
    · simp only [newChain]
      exact getLast_append_one _ _

/-- C10 witness: the theorem at the concrete category text. -/
theorem c10_witness :
    apply_fun_expr "len" "text" (PyArg.num "2") = "LENTGH(\x7b\x7d)" ∧
    get_len_fun "text" = "LENGTH" ∧
    funcNameOf (apply_fun_expr "len" "text" (PyArg.num "2")) ≠ get_len_fun "text" :=
  have th := c10_len_uses_misspelled_name "text" (PyArg.num "2")
    (by decide) (by decide)
  ⟨th.1, th.2.2.1, th.2.2.2.1⟩
